import Mathlib

/-!
Verification of the PS/2 protocol engine (`src/libs/ps2/ps2.c`) and the
packet translator (`src/libs/ps22ser/ps22ser.c`).

The two interrupt handlers `ISR(INT0_vect)` (bus-edge, falling clock) and
`ISR(TIMER0_OVF_vect)` (timer tick) are embedded as pure transition
functions on a machine record `Mach` that carries the C file's shared
variables (`state`, `recv_byte`, `rx_head`, `rx_tail`, `rx_buf`,
`tx_byte`, `bits`, `parity`, `waitcnt`, the handler-static `barkcnt`)
together with the hardware configuration the code manipulates (port
output levels, data-direction bits, the INT0 mask/flag, and the Timer0
mask/prescaler/counter registers).  Sampled input pins (`ps2_datin`,
`ps2_clkin`) are external and passed as parameters to each handler.

All byte-sized C variables hold values below 256 in every reachable
state; the only operations where 8-bit wraparound can occur are the `--`
decrements, embedded with explicit wraparound (`pred8`).  The
platform-conditional timer constants are those of the first
(`__AVR_ATmega8A__`, 8 MHz) branch of the source.

`PS2_RXBUF_LEN` is declared in `ps2.h`, which is not part of the
sources; ring-buffer operations therefore take the capacity `cap` as an
explicit parameter, and a representative concrete capacity is used where
a theorem needs a closed machine.
-/

/-- The `enum _state` of ps2.c.  The code compares states only for
equality, so the enum is embedded as an inductive type. -/
inductive St where
  | IDLE
  | RX_DATA
  | RX_PARITY
  | RX_STOP
  | TX_REQ0
  | TX_DATA
  | TX_PARITY
  | TX_STOP
  | TX_ACK
  | TX_END
  | ERROR
deriving DecidableEq, Repr

/-- Machine state: the shared variables of ps2.c plus the hardware
configuration bits the code writes.  Direction fields are `true` when
the line is configured as an input (DDR bit clear). -/
structure Mach where
  state : St
  recv_byte : Nat
  rx_head : Nat
  rx_tail : Nat
  rx_buf : List Nat
  tx_byte : Nat
  bits : Nat
  parity : Nat
  waitcnt : Nat
  barkcnt : Nat
  datOut : Bool
  clkOut : Bool
  datDirIn : Bool
  clkDirIn : Bool
  int0Enabled : Bool
  int0Flag : Bool
  timerEnabled : Bool
  tccr : Nat
  tcnt : Nat
deriving DecidableEq, Repr

/-- 8-bit decrement with wraparound, the semantics of `--x` on a
`uint8_t`. -/
def pred8 (n : Nat) : Nat :=
  if n = 0 then 255 else n - 1

/-- ps2_dir: set bus directions, `true` means input. -/
def ps2_dir (dat_in clk_in : Bool) (m : Mach) : Mach :=
  { m with datDirIn := dat_in, clkDirIn := clk_in }

/-- ps2_clk: set the clock port bit. -/
def ps2_clk (c : Bool) (m : Mach) : Mach :=
  { m with clkOut := c }

/-- ps2_dat: set the data port bit. -/
def ps2_dat (d : Bool) (m : Mach) : Mach :=
  { m with datOut := d }

/-- ps2_enable_recv: enabling resets the state to IDLE, makes both lines
inputs and clears+unmasks INT0; disabling masks INT0, drives clock low
and leaves data as input, clock as output. -/
def ps2_enable_recv (enable : Bool) (m : Mach) : Mach :=
  if enable then
    { m with state := St.IDLE, datDirIn := true, clkDirIn := true,
             int0Flag := false, int0Enabled := true }
  else
    ps2_dir true false (ps2_clk false { m with int0Enabled := false })

/-- ps2_recover: when in ERROR, disable reception and arm Timer0 for the
one-shot recovery delay (ATmega8A constants: TCNT0 = 255-35, TCCR0 = 4);
otherwise do nothing. -/
def ps2_recover (m : Mach) : Mach :=
  if m.state = St.ERROR then
    let m1 := ps2_enable_recv false m
    { m1 with tcnt := 255 - 35, timerEnabled := true, tccr := 4 }
  else m

/-- ps2_avail: head different from tail. -/
def ps2_avail (m : Mach) : Bool :=
  m.rx_head != m.rx_tail

/-- ps2_getbyte: read the byte at the tail and advance the tail modulo
the capacity; there is no emptiness check in the source. -/
def ps2_getbyte (cap : Nat) (m : Mach) : Nat × Mach :=
  (m.rx_buf.getD m.rx_tail 0, { m with rx_tail := (m.rx_tail + 1) % cap })

/-- The enqueue performed by the RX_STOP arm of the INT0 handler:
`rx_buf[rx_head] = b; rx_head = (rx_head + 1) % PS2_RXBUF_LEN;`. -/
def ps2_enqueue (cap : Nat) (b : Nat) (m : Mach) : Mach :=
  { m with rx_buf := m.rx_buf.set m.rx_head b,
           rx_head := (m.rx_head + 1) % cap }

/-- ISR(INT0_vect): the bus-edge handler, invoked at every falling clock
edge; `datPin` is the sampled data line (`ps2_datin` reads it into bit
7).  The handler ends by calling `ps2_recover`. -/
def int0_isr (cap : Nat) (datPin : Bool) (m : Mach) : Mach :=
  let ps2_indat : Nat := if datPin then 0x80 else 0x00
  let m' :=
    match m.state with
    | St.ERROR => m
    | St.IDLE =>
        if ps2_indat = 0 then
          { m with state := St.RX_DATA, bits := 8, parity := 0, recv_byte := 0 }
        else
          { m with state := St.ERROR }
    | St.RX_DATA =>
        let rb := (m.recv_byte >>> 1) ||| ps2_indat
        let p := m.parity ^^^ ps2_indat
        let b := pred8 m.bits
        if b = 0 then
          { m with recv_byte := rb, parity := p, bits := b, state := St.RX_PARITY }
        else
          { m with recv_byte := rb, parity := p, bits := b }
    | St.RX_PARITY =>
        let p := m.parity ^^^ ps2_indat
        if p ≠ 0 then
          { m with parity := p, state := St.RX_STOP }
        else
          { m with parity := p, state := St.ERROR }
    | St.RX_STOP =>
        if ps2_indat = 0 then
          { m with state := St.ERROR }
        else
          { ps2_enqueue cap m.recv_byte m with state := St.IDLE }
    | St.TX_REQ0 => m
    | St.TX_DATA =>
        let m1 := ps2_dat ((m.tx_byte &&& 1) != 0) m
        let p := m.parity ^^^ (m.tx_byte &&& 1)
        let t := m.tx_byte >>> 1
        let b := pred8 m.bits
        if b = 0 then
          { m1 with parity := p, tx_byte := t, bits := b, state := St.TX_PARITY }
        else
          { m1 with parity := p, tx_byte := t, bits := b }
    | St.TX_PARITY =>
        { ps2_dat ((m.parity ^^^ 1) != 0) m with state := St.TX_STOP }
    | St.TX_STOP =>
        { ps2_dir true true (ps2_dat false m) with state := St.TX_ACK }
    | St.TX_ACK =>
        if ps2_indat ≠ 0 then
          { m with state := St.ERROR }
        else
          { m with state := St.TX_END, waitcnt := 50,
                   timerEnabled := true, tcnt := 255 - 2, tccr := 2 }
    | St.TX_END => m
  ps2_recover m'

/-- ISR(TIMER0_OVF_vect): the timer-tick handler; `clkPin`/`datPin` are
the sampled clock and data lines (read only in the TX_END arm). -/
def timer0_isr (clkPin datPin : Bool) (m : Mach) : Mach :=
  match m.state with
  | St.ERROR =>
      let m1 := ps2_enable_recv true (ps2_dat false (ps2_clk false { m with state := St.IDLE }))
      { m1 with timerEnabled := false, tccr := 0 }
  | St.TX_REQ0 =>
      let m1 := { m with barkcnt := 20, timerEnabled := true, tcnt := 0, tccr := 4 }
      let m2 := ps2_dir false true (ps2_dir false false (ps2_dat false m1))
      { m2 with int0Flag := false, int0Enabled := true,
                bits := 8, parity := 0, state := St.TX_DATA }
  | St.TX_END =>
      if clkPin && datPin then
        { m with timerEnabled := false, tccr := 0, state := St.IDLE }
      else
        if m.waitcnt = 0 then
          ps2_recover { m with state := St.ERROR }
        else
          { m with waitcnt := m.waitcnt - 1 }
  | _ =>
      if m.barkcnt = 0 then
        ps2_recover { m with state := St.ERROR }
      else
        { m with barkcnt := m.barkcnt - 1 }

/-- Power-on machine: all shared variables at their static initial
values (zero), ports low, both lines inputs, everything masked. -/
def powerOn (cap : Nat) : Mach :=
  { state := St.IDLE, recv_byte := 0, rx_head := 0, rx_tail := 0,
    rx_buf := List.replicate cap 0, tx_byte := 0, bits := 0, parity := 0,
    waitcnt := 0, barkcnt := 0, datOut := false, clkOut := false,
    datDirIn := true, clkDirIn := true, int0Enabled := false,
    int0Flag := false, timerEnabled := false, tccr := 0, tcnt := 0 }

/-- ps2_init: reset state and ring indices, disable reception, mask the
timer interrupt. -/
def ps2_init_fn (m : Mach) : Mach :=
  let m1 := { m with state := St.IDLE, rx_head := 0, rx_tail := 0 }
  { ps2_enable_recv false m1 with timerEnabled := false }

/-- A machine initialised by `ps2_init` and with reception enabled, the
idle configuration from which frames are received. -/
def readyMach (cap : Nat) : Mach :=
  ps2_enable_recv true (ps2_init_fn (powerOn cap))

/-- ps2_sendbyte up to the second spin: once the state is IDLE the call
disables reception, stores the byte, enters TX_REQ0 and arms Timer0
(ATmega8A constants: TCNT0 = 255-4, TCCR0 = 4). -/
def sendByteStart (v : Nat) (m : Mach) : Mach :=
  let m1 := ps2_enable_recv false m
  { m1 with tx_byte := v, state := St.TX_REQ0,
            tcnt := 255 - 4, timerEnabled := true, tccr := 4 }

/-- An asynchronous event: a falling clock edge with the sampled data
line, or a timer tick with the sampled clock and data lines. -/
inductive Ev where
  | edge (dat : Bool)
  | tick (clk dat : Bool)
deriving DecidableEq, Repr

/-- Dispatch one event to its handler. -/
def step (cap : Nat) (e : Ev) (m : Mach) : Mach :=
  match e with
  | Ev.edge d => int0_isr cap d m
  | Ev.tick c d => timer0_isr c d m

/-- Run a trace of events. -/
def runTrace (cap : Nat) (tr : List Ev) (m : Mach) : Mach :=
  tr.foldl (fun m e => step cap e m) m

/-- Run a list of bus edges, one sampled data bit per edge. -/
def runEdges (cap : Nat) (pins : List Bool) (m : Mach) : Mach :=
  pins.foldl (fun m d => int0_isr cap d m) m

/-- Modelled from the spec: `PS2_RXBUF_LEN` is declared in `ps2.h`,
which is not among the sources; the spec says only that the ring-buffer
capacity is a compile-time constant.  A representative concrete value
used where theorems need a closed machine. -/
def PS2_RXBUF_LEN : Nat := 16

/-- Spec-side reconstruction: the byte whose bit 0 is the first sampled
data bit (LSB-first assembly). -/
def specAssembleLSB (d0 d1 d2 d3 d4 d5 d6 d7 : Bool) : Nat :=
  cond d0 1 0 + 2 * cond d1 1 0 + 4 * cond d2 1 0 + 8 * cond d3 1 0 +
  16 * cond d4 1 0 + 32 * cond d5 1 0 + 64 * cond d6 1 0 + 128 * cond d7 1 0

/-- Number of set bits in a list of sampled bits. -/
def specOnes (l : List Bool) : Nat := l.count true

/-- C1: for every valid 11-bit receive frame (start bit low, 8 data
bits, odd parity, stop bit high) processed by the bus-edge handler from
the idle receive-enabled machine, exactly one byte is enqueued (head
advances from 0 to 1, tail stays 0, state returns to IDLE) and the
dequeued byte equals the 8 data bits assembled LSB-first. -/
theorem rx_valid_frame_delivers_lsb_byte :
    ∀ d0 d1 d2 d3 d4 d5 d6 d7 p : Bool,
      specOnes [d0, d1, d2, d3, d4, d5, d6, d7, p] % 2 = 1 →
      (runEdges PS2_RXBUF_LEN [false, d0, d1, d2, d3, d4, d5, d6, d7, p, true]
          (readyMach PS2_RXBUF_LEN)).state = St.IDLE ∧
      (runEdges PS2_RXBUF_LEN [false, d0, d1, d2, d3, d4, d5, d6, d7, p, true]
          (readyMach PS2_RXBUF_LEN)).rx_head = 1 ∧
      (runEdges PS2_RXBUF_LEN [false, d0, d1, d2, d3, d4, d5, d6, d7, p, true]
          (readyMach PS2_RXBUF_LEN)).rx_tail = 0 ∧
      (ps2_getbyte PS2_RXBUF_LEN
          (runEdges PS2_RXBUF_LEN [false, d0, d1, d2, d3, d4, d5, d6, d7, p, true]
            (readyMach PS2_RXBUF_LEN))).1 = specAssembleLSB d0 d1 d2 d3 d4 d5 d6 d7 := by
  decide

/-- C1 witness: the spec scenario, data bits sampled in order
1,0,1,1,0,0,1,1 with parity bit 0 (total ones odd) and stop bit high
delivers the byte 0xCD = 205. -/
theorem rx_valid_frame_delivers_lsb_byte_witness :
    specOnes [true, false, true, true, false, false, true, true, false] % 2 = 1 ∧
    (ps2_getbyte PS2_RXBUF_LEN
        (runEdges PS2_RXBUF_LEN
          [false, true, false, true, true, false, false, true, true, false, true]
          (readyMach PS2_RXBUF_LEN))).1 = 205 := by
  refine ⟨by decide, ?_⟩
  have h := rx_valid_frame_delivers_lsb_byte true false true true false false true true
      false (by decide)
  exact h.2.2.2.trans (by decide)

/-- C2: a byte is enqueued only on a fully validated frame.  If the XOR
of the 9 sampled bits (8 data bits plus parity) is even the handler
leaves RX_PARITY for ERROR and the later stop edge is ignored; if parity
is odd but the stop bit samples low the handler leaves RX_STOP for
ERROR; in both cases no byte is enqueued (head and tail stay 0) and one
timer tick performs the recovery back to IDLE. -/
theorem invalid_frame_no_enqueue_recovers :
    ∀ d0 d1 d2 d3 d4 d5 d6 d7 p s tc td : Bool,
      (specOnes [d0, d1, d2, d3, d4, d5, d6, d7, p] % 2 = 0 →
        (runEdges PS2_RXBUF_LEN [false, d0, d1, d2, d3, d4, d5, d6, d7, p, s]
            (readyMach PS2_RXBUF_LEN)).state = St.ERROR ∧
        (runEdges PS2_RXBUF_LEN [false, d0, d1, d2, d3, d4, d5, d6, d7, p, s]
            (readyMach PS2_RXBUF_LEN)).rx_head = 0 ∧
        (runEdges PS2_RXBUF_LEN [false, d0, d1, d2, d3, d4, d5, d6, d7, p, s]
            (readyMach PS2_RXBUF_LEN)).rx_tail = 0 ∧
        (timer0_isr tc td
            (runEdges PS2_RXBUF_LEN [false, d0, d1, d2, d3, d4, d5, d6, d7, p, s]
              (readyMach PS2_RXBUF_LEN))).state = St.IDLE) ∧
      (specOnes [d0, d1, d2, d3, d4, d5, d6, d7, p] % 2 = 1 → s = false →
        (runEdges PS2_RXBUF_LEN [false, d0, d1, d2, d3, d4, d5, d6, d7, p, s]
            (readyMach PS2_RXBUF_LEN)).state = St.ERROR ∧
        (runEdges PS2_RXBUF_LEN [false, d0, d1, d2, d3, d4, d5, d6, d7, p, s]
            (readyMach PS2_RXBUF_LEN)).rx_head = 0 ∧
        (runEdges PS2_RXBUF_LEN [false, d0, d1, d2, d3, d4, d5, d6, d7, p, s]
            (readyMach PS2_RXBUF_LEN)).rx_tail = 0 ∧
        (timer0_isr tc td
            (runEdges PS2_RXBUF_LEN [false, d0, d1, d2, d3, d4, d5, d6, d7, p, s]
              (readyMach PS2_RXBUF_LEN))).state = St.IDLE) := by
  decide

/-- C2 witness: the C1 scenario with the parity bit flipped ends in
ERROR with nothing enqueued and a tick recovers to IDLE; likewise the
odd-parity frame with a low stop bit. -/
theorem invalid_frame_no_enqueue_recovers_witness :
    ((runEdges PS2_RXBUF_LEN
        [false, true, false, true, true, false, false, true, true, true, true]
        (readyMach PS2_RXBUF_LEN)).state = St.ERROR ∧
      (runEdges PS2_RXBUF_LEN
        [false, true, false, true, true, false, false, true, true, true, true]
        (readyMach PS2_RXBUF_LEN)).rx_head = 0) ∧
    ((runEdges PS2_RXBUF_LEN
        [false, true, false, true, true, false, false, true, true, false, false]
        (readyMach PS2_RXBUF_LEN)).state = St.ERROR ∧
      (timer0_isr false false
        (runEdges PS2_RXBUF_LEN
          [false, true, false, true, true, false, false, true, true, false, false]
          (readyMach PS2_RXBUF_LEN))).state = St.IDLE) := by
  have h1 := (invalid_frame_no_enqueue_recovers true false true true false false true true
      true true false false).1 (by decide)
  have h2 := (invalid_frame_no_enqueue_recovers true false true true false false true true
      false false false false).2 (by decide) rfl
  exact ⟨⟨h1.1, h1.2.1⟩, ⟨h2.1, h2.2.2.2⟩⟩

/-- ps2bufToSer from ps22ser.c: takes the three source packet bytes and
the three current destination bytes, returns the C return value together
with the destination bytes after the call (the C function writes through
`dst`; the source buffer is only read, which the embedding reflects by
returning no modified sources). -/
def ps2bufToSer (s0 s1 s2 d0 d1 d2 : Nat) : Nat × Nat × Nat × Nat :=
  if s0 &&& 0x08 = 0 then
    (0, d0, d1, d2)
  else
    let e0 := 0xC0
    let e1 := 0x80
    let e2 := 0x80
    let e0 := e0 ||| ((s0 &&& 0x01) <<< 5)
    let e0 := e0 ||| ((s0 &&& 0x02) <<< 3)
    let e0 := e0 ||| ((s0 &&& 0x20) >>> 2)
    let e0 := e0 ||| ((s0 &&& 0x10) >>> 3)
    let e0 := e0 ||| ((s2 &&& 0x80) >>> 5)
    let e0 := e0 ||| ((s1 &&& 0x80) >>> 7)
    let e1 := e1 ||| ((s1 &&& 0x7E) >>> 1)
    let e2 := e2 ||| ((s2 &&& 0x7E) >>> 1)
    (1, e0, e1, e2)

/-- C9: when bit 3 of the first source byte is clear, ps2bufToSer
returns 0 and the destination bytes are exactly what they were;
otherwise it returns 1 and the written destination bytes are a pure
function of the three source bytes alone (the result does not depend on
the previous destination contents). -/
theorem ps2bufToSer_validates_and_is_pure :
    ∀ s0 s1 s2 d0 d1 d2 e0 e1 e2 : Nat,
      (s0 &&& 0x08 = 0 → ps2bufToSer s0 s1 s2 d0 d1 d2 = (0, d0, d1, d2)) ∧
      (s0 &&& 0x08 ≠ 0 →
        (ps2bufToSer s0 s1 s2 d0 d1 d2).1 = 1 ∧
        ps2bufToSer s0 s1 s2 d0 d1 d2 = ps2bufToSer s0 s1 s2 e0 e1 e2) := by
  intro s0 s1 s2 d0 d1 d2 e0 e1 e2
  constructor
  · intro h
    simp [ps2bufToSer, h]
  · intro h
    simp [ps2bufToSer, h]

/-- C9 witness: a packet with bit 3 clear is rejected unchanged, and a
packet with bit 3 set yields destination bytes independent of the
previous destination contents. -/
theorem ps2bufToSer_validates_and_is_pure_witness :
    ps2bufToSer 0 17 34 7 8 9 = (0, 7, 8, 9) ∧
    (ps2bufToSer 9 17 34 7 8 9).1 = 1 ∧
    ps2bufToSer 9 17 34 7 8 9 = ps2bufToSer 9 17 34 250 251 252 := by
  refine ⟨?_, ?_⟩
  · exact (ps2bufToSer_validates_and_is_pure 0 17 34 7 8 9 250 251 252).1 (by decide)
  · exact (ps2bufToSer_validates_and_is_pure 9 17 34 7 8 9 250 251 252).2 (by decide)

/-- C10: ps2_getbyte unconditionally returns the byte at the current
tail and advances the tail by one modulo the capacity, never touching
the head and never checking emptiness; consequently one call on an empty
buffer (head = tail, in range, capacity at least 2) makes ps2_avail
return true although nothing was produced. -/
theorem getbyte_unchecked_empty_makes_avail :
    ∀ cap m,
      (ps2_getbyte cap m).1 = m.rx_buf.getD m.rx_tail 0 ∧
      ((ps2_getbyte cap m).2).rx_tail = (m.rx_tail + 1) % cap ∧
      ((ps2_getbyte cap m).2).rx_head = m.rx_head ∧
      (1 < cap → m.rx_tail < cap → m.rx_head = m.rx_tail →
        ps2_avail (ps2_getbyte cap m).2 = true) := by
  intro cap m
  refine ⟨rfl, rfl, rfl, ?_⟩
  intro hcap htail hht
  simp only [ps2_avail, ps2_getbyte, bne_iff_ne, ne_eq, decide_eq_true_eq, hht]
  rcases Nat.lt_or_ge (m.rx_tail + 1) cap with h | h
  · rw [Nat.mod_eq_of_lt h]; omega
  · have hc : m.rx_tail + 1 = cap := by omega
    rw [hc, Nat.mod_self]; omega

/-- C10 witness: dequeuing from the freshly initialised empty machine
makes ps2_avail report true. -/
theorem getbyte_unchecked_empty_makes_avail_witness :
    ps2_avail (ps2_getbyte PS2_RXBUF_LEN (readyMach PS2_RXBUF_LEN)).2 = true := by
  exact (getbyte_unchecked_empty_makes_avail PS2_RXBUF_LEN
      (readyMach PS2_RXBUF_LEN)).2.2.2 (by decide) (by decide) (by decide)

/-- The default arm of the timer handler: any state other than ERROR,
TX_REQ0 and TX_END runs the general watchdog countdown. -/
theorem timer0_isr_default (clk dat : Bool) (m : Mach)
    (h1 : m.state ≠ St.ERROR) (h2 : m.state ≠ St.TX_REQ0)
    (h3 : m.state ≠ St.TX_END) :
    timer0_isr clk dat m =
      if m.barkcnt = 0 then ps2_recover { m with state := St.ERROR }
      else { m with barkcnt := m.barkcnt - 1 } := by
  cases hs : m.state <;>
    first
      | exact absurd hs h1
      | exact absurd hs h2
      | exact absurd hs h3
      | simp [timer0_isr, hs]

/-- C4: in TX_END with the two lines not both high the tick handler
transitions to ERROR (arming recovery: INT0 masked, timer armed) exactly
when the countdown is zero and otherwise decrements it; in any state
other than ERROR, TX_REQ0 and TX_END the tick handler does the same with
the general watchdog countdown; in TX_END with both lines high it
disarms the tick source and goes to IDLE. -/
theorem timer_watchdog_counts_down_to_error :
    ∀ clk dat : Bool, ∀ m : Mach,
      (m.state = St.TX_END →
        ((clk && dat) = true →
          (timer0_isr clk dat m).state = St.IDLE ∧
          (timer0_isr clk dat m).timerEnabled = false ∧
          (timer0_isr clk dat m).tccr = 0) ∧
        ((clk && dat) = false →
          ((timer0_isr clk dat m).state = St.ERROR ↔ m.waitcnt = 0) ∧
          (m.waitcnt = 0 →
            (timer0_isr clk dat m).int0Enabled = false ∧
            (timer0_isr clk dat m).timerEnabled = true) ∧
          (m.waitcnt ≠ 0 →
            (timer0_isr clk dat m).waitcnt = m.waitcnt - 1 ∧
            (timer0_isr clk dat m).state = St.TX_END))) ∧
      (m.state ≠ St.ERROR → m.state ≠ St.TX_REQ0 → m.state ≠ St.TX_END →
        ((timer0_isr clk dat m).state = St.ERROR ↔ m.barkcnt = 0) ∧
        (m.barkcnt = 0 →
          (timer0_isr clk dat m).int0Enabled = false ∧
          (timer0_isr clk dat m).timerEnabled = true) ∧
        (m.barkcnt ≠ 0 →
          (timer0_isr clk dat m).barkcnt = m.barkcnt - 1 ∧
          (timer0_isr clk dat m).state = m.state)) := by
  intro clk dat m
  constructor
  · intro hm
    constructor
    · intro hcd
      simp [timer0_isr, hm, hcd]
    · intro hcd
      by_cases hw : m.waitcnt = 0
      · simp [timer0_isr, hm, hcd, hw, ps2_recover, ps2_enable_recv, ps2_clk, ps2_dir]
      · simp [timer0_isr, hm, hcd, hw]
  · intro h1 h2 h3
    rw [timer0_isr_default clk dat m h1 h2 h3]
    by_cases hb : m.barkcnt = 0
    · simp [hb, ps2_recover, ps2_enable_recv, ps2_clk, ps2_dir]
    · simp [hb, h1]

/-- C4 witness: a TX_END machine with exhausted countdown errors out, a
TX_END machine with both lines high goes idle and disarms the tick, and
a mid-frame state with a live countdown just decrements it. -/
theorem timer_watchdog_counts_down_to_error_witness :
    (timer0_isr false false { powerOn PS2_RXBUF_LEN with state := St.TX_END }).state
        = St.ERROR ∧
    (timer0_isr true true { powerOn PS2_RXBUF_LEN with state := St.TX_END }).state
        = St.IDLE ∧
    (timer0_isr false false
        { powerOn PS2_RXBUF_LEN with state := St.RX_DATA, barkcnt := 5 }).barkcnt = 4 := by
  refine ⟨?_, ?_, ?_⟩
  · exact (((timer_watchdog_counts_down_to_error false false
        { powerOn PS2_RXBUF_LEN with state := St.TX_END }).1 rfl).2 (by decide)).1.mpr rfl
  · exact (((timer_watchdog_counts_down_to_error true true
        { powerOn PS2_RXBUF_LEN with state := St.TX_END }).1 rfl).1 (by decide)).1
  · exact (((timer_watchdog_counts_down_to_error false false
        { powerOn PS2_RXBUF_LEN with state := St.RX_DATA, barkcnt := 5 }).2
        (by decide) (by decide) (by decide)).2.2 (by decide)).1

/-- Number of set bits among the low 8 bits of a byte. -/
def specOnes8 (v : Nat) : Nat :=
  (List.range 8).countP (fun i => (v >>> i) &&& 1 = 1)

set_option maxRecDepth 40000 in
/-- C6: starting a transmission of any byte v (sendByte setup, then the
TX_REQ0 timer tick, then 8 data-bit edges) reaches TX_PARITY, and the
parity edge drives the data line with the inversion of the XOR of the 8
transmitted data bits, so the number of set bits across the 8 data bits
plus the driven parity bit is odd. -/
theorem tx_parity_drives_odd_parity :
    ∀ v : Nat, v < 256 →
      (runEdges PS2_RXBUF_LEN (List.replicate 8 false)
          (timer0_isr false false (sendByteStart v (readyMach PS2_RXBUF_LEN)))).state
        = St.TX_PARITY ∧
      (int0_isr PS2_RXBUF_LEN false
          (runEdges PS2_RXBUF_LEN (List.replicate 8 false)
            (timer0_isr false false (sendByteStart v (readyMach PS2_RXBUF_LEN))))).state
        = St.TX_STOP ∧
      (int0_isr PS2_RXBUF_LEN false
          (runEdges PS2_RXBUF_LEN (List.replicate 8 false)
            (timer0_isr false false (sendByteStart v (readyMach PS2_RXBUF_LEN))))).datOut
        = decide (specOnes8 v % 2 = 0) ∧
      (specOnes8 v +
          (if (int0_isr PS2_RXBUF_LEN false
                (runEdges PS2_RXBUF_LEN (List.replicate 8 false)
                  (timer0_isr false false
                    (sendByteStart v (readyMach PS2_RXBUF_LEN))))).datOut
            then 1 else 0)) % 2 = 1 := by
  decide

/-- C6 witness: transmitting 0x5A (four set bits) drives the parity bit
high, so the nine transmitted bits have odd weight. -/
theorem tx_parity_drives_odd_parity_witness :
    (int0_isr PS2_RXBUF_LEN false
        (runEdges PS2_RXBUF_LEN (List.replicate 8 false)
          (timer0_isr false false (sendByteStart 90 (readyMach PS2_RXBUF_LEN))))).datOut
      = true := by
  have h := tx_parity_drives_odd_parity 90 (by decide)
  exact h.2.2.1.trans (by decide)

/-- C7: in ERROR every bus edge leaves all shared protocol variables
(state, frame accumulator, ring indices and contents, pending byte,
countdowns) unchanged — the state in particular stays ERROR — and one
timer tick performs the only exit: it sets IDLE, drives both lines low,
re-enables reception (both lines inputs, INT0 unmasked) and disarms the
tick source. -/
theorem error_edge_ignored_only_timer_recovers :
    ∀ cap : Nat, ∀ pin clk dat : Bool, ∀ m : Mach, m.state = St.ERROR →
      ((int0_isr cap pin m).state = St.ERROR ∧
        (int0_isr cap pin m).recv_byte = m.recv_byte ∧
        (int0_isr cap pin m).rx_head = m.rx_head ∧
        (int0_isr cap pin m).rx_tail = m.rx_tail ∧
        (int0_isr cap pin m).rx_buf = m.rx_buf ∧
        (int0_isr cap pin m).tx_byte = m.tx_byte ∧
        (int0_isr cap pin m).bits = m.bits ∧
        (int0_isr cap pin m).parity = m.parity ∧
        (int0_isr cap pin m).waitcnt = m.waitcnt ∧
        (int0_isr cap pin m).barkcnt = m.barkcnt) ∧
      ((timer0_isr clk dat m).state = St.IDLE ∧
        (timer0_isr clk dat m).clkOut = false ∧
        (timer0_isr clk dat m).datOut = false ∧
        (timer0_isr clk dat m).datDirIn = true ∧
        (timer0_isr clk dat m).clkDirIn = true ∧
        (timer0_isr clk dat m).int0Enabled = true ∧
        (timer0_isr clk dat m).timerEnabled = false ∧
        (timer0_isr clk dat m).tccr = 0) := by
  intro cap pin clk dat m hm
  constructor
  · simp [int0_isr, hm, ps2_recover, ps2_enable_recv, ps2_clk, ps2_dir]
  · simp [timer0_isr, hm, ps2_enable_recv, ps2_clk, ps2_dat]

/-- C7 witness: a spurious start bit (data high in IDLE) reaches ERROR;
there a further edge keeps the state ERROR and a tick returns to IDLE
with reception enabled. -/
theorem error_edge_ignored_only_timer_recovers_witness :
    ((int0_isr PS2_RXBUF_LEN true
        (int0_isr PS2_RXBUF_LEN true (readyMach PS2_RXBUF_LEN))).state = St.ERROR ∧
      (timer0_isr false false
        (int0_isr PS2_RXBUF_LEN true (readyMach PS2_RXBUF_LEN))).state = St.IDLE) ∧
    (timer0_isr false false
        (int0_isr PS2_RXBUF_LEN true (readyMach PS2_RXBUF_LEN))).int0Enabled = true := by
  have h := error_edge_ignored_only_timer_recovers PS2_RXBUF_LEN true false false
      (int0_isr PS2_RXBUF_LEN true (readyMach PS2_RXBUF_LEN)) (by decide)
  exact ⟨⟨h.1.1, h.2.1⟩, h.2.2.2.2.2.2.1⟩

/-- C8: in TX_REQ0 a bus edge is a strict no-op (the machine is returned
unchanged), and the timer tick performs the transition out: it arms the
bounded watchdog (countdown 20, tick source armed), pulls the data line
low as an output while leaving the clock port bit as it was, releases
the clock line to input, clears and re-enables the bus-edge source,
resets the frame accumulator to 8 bits and zero parity, and enters
TX_DATA. -/
theorem txreq_edge_noop_timer_starts_data :
    ∀ cap : Nat, ∀ pin clk dat : Bool, ∀ m : Mach, m.state = St.TX_REQ0 →
      int0_isr cap pin m = m ∧
      ((timer0_isr clk dat m).state = St.TX_DATA ∧
        (timer0_isr clk dat m).barkcnt = 20 ∧
        (timer0_isr clk dat m).timerEnabled = true ∧
        (timer0_isr clk dat m).tccr = 4 ∧
        (timer0_isr clk dat m).tcnt = 0 ∧
        (timer0_isr clk dat m).datOut = false ∧
        (timer0_isr clk dat m).datDirIn = false ∧
        (timer0_isr clk dat m).clkDirIn = true ∧
        (timer0_isr clk dat m).clkOut = m.clkOut ∧
        (timer0_isr clk dat m).int0Flag = false ∧
        (timer0_isr clk dat m).int0Enabled = true ∧
        (timer0_isr clk dat m).bits = 8 ∧
        (timer0_isr clk dat m).parity = 0) := by
  intro cap pin clk dat m hm
  constructor
  · simp [int0_isr, hm, ps2_recover]
  · simp [timer0_isr, hm, ps2_dir, ps2_dat]

/-- C8 witness: starting a send of 0x5A puts the machine in TX_REQ0; an
edge there changes nothing and the tick enters TX_DATA with the
request-to-send line configuration and a reset frame accumulator. -/
theorem txreq_edge_noop_timer_starts_data_witness :
    int0_isr PS2_RXBUF_LEN true (sendByteStart 90 (readyMach PS2_RXBUF_LEN))
        = sendByteStart 90 (readyMach PS2_RXBUF_LEN) ∧
    (timer0_isr false false (sendByteStart 90 (readyMach PS2_RXBUF_LEN))).state
        = St.TX_DATA ∧
    (timer0_isr false false (sendByteStart 90 (readyMach PS2_RXBUF_LEN))).datOut
        = false ∧
    (timer0_isr false false (sendByteStart 90 (readyMach PS2_RXBUF_LEN))).clkDirIn
        = true := by
  have h := txreq_edge_noop_timer_starts_data PS2_RXBUF_LEN true false false
      (sendByteStart 90 (readyMach PS2_RXBUF_LEN)) (by decide)
  exact ⟨h.1, h.2.1, h.2.2.2.2.2.2.1, h.2.2.2.2.2.2.2.2.1⟩

/-- Reception is enabled: both lines configured as inputs and the
bus-edge event source armed. -/
def RecvEn (m : Mach) : Prop :=
  m.int0Enabled = true ∧ m.datDirIn = true ∧ m.clkDirIn = true

/-- Handler invariant: the hardware configuration each protocol state
guarantees, strong enough to show that every path reaching IDLE leaves
reception enabled. -/
def MachInv (m : Mach) : Prop :=
  match m.state with
  | St.IDLE => RecvEn m
  | St.RX_DATA => RecvEn m
  | St.RX_PARITY => RecvEn m
  | St.RX_STOP => RecvEn m
  | St.TX_ACK => RecvEn m
  | St.TX_END => RecvEn m
  | St.TX_DATA => m.int0Enabled = true
  | St.TX_PARITY => m.int0Enabled = true
  | St.TX_STOP => m.int0Enabled = true
  | St.TX_REQ0 => True
  | St.ERROR => True

set_option maxHeartbeats 1000000 in
/-- The invariant is preserved by every bus-edge and timer event,
whatever the sampled line levels. -/
theorem inv_step (cap : Nat) (e : Ev) (m : Mach) (h : MachInv m) :
    MachInv (step cap e m) := by
  obtain ⟨s, rb, rh, rt, buf, tb, bi, pa, wc, bc, dO, cO, dD, cD, iE, iF, tE, tc, tn⟩ := m
  cases e with
  | edge d =>
      cases d <;> cases s <;>
        simp only [step, int0_isr, ps2_enqueue, ps2_dir, ps2_clk, ps2_dat, pred8] <;>
        (repeat' split) <;>
        simp_all [ps2_recover, ps2_enable_recv, ps2_dir, ps2_clk, ps2_dat, MachInv, RecvEn]
  | tick c dd =>
      cases s <;>
        simp only [step, timer0_isr, ps2_dir, ps2_clk, ps2_dat] <;>
        (repeat' split) <;>
        simp_all [ps2_recover, ps2_enable_recv, ps2_dir, ps2_clk, ps2_dat, MachInv, RecvEn]

/-- The invariant is preserved by every trace of events. -/
theorem inv_runTrace (cap : Nat) (tr : List Ev) (m : Mach) (h : MachInv m) :
    MachInv (runTrace cap tr m) := by
  induction tr generalizing m with
  | nil => exact h
  | cons e tr ih => exact ih (step cap e m) (inv_step cap e m h)

/-- In IDLE the invariant says exactly that reception is enabled. -/
theorem machInv_idle (m : Mach) (h : MachInv m) (hs : m.state = St.IDLE) :
    m.int0Enabled = true ∧ m.datDirIn = true ∧ m.clkDirIn = true := by
  simp only [MachInv, hs] at h
  exact h

/-- A complete peer-acknowledged transmit exchange: the request tick,
eight data-bit edges, the parity and stop edges, the acknowledge edge
with the data line low, and the final tick with both lines released. -/
def sendCompletionTrace : List Ev :=
  Ev.tick false false ::
    (List.replicate 8 (Ev.edge false) ++
      [Ev.edge false, Ev.edge false, Ev.edge false, Ev.tick true true])

/-- C3: whenever the spin of ps2_sendbyte can return — that is, whenever
any sequence of bus-edge and timer events after the send setup brings
the state back to IDLE, whether through the peer acknowledge path, a
negative acknowledge or a watchdog timeout — reception is re-enabled:
both lines are inputs and the bus-edge source is armed.  The embedding
of the call returns no status to the caller, matching its void C
signature. -/
theorem sendbyte_return_idle_reception_enabled :
    ∀ (cap v : Nat) (m0 : Mach) (tr : List Ev),
      (runTrace cap tr (sendByteStart v m0)).state = St.IDLE →
      (runTrace cap tr (sendByteStart v m0)).int0Enabled = true ∧
      (runTrace cap tr (sendByteStart v m0)).datDirIn = true ∧
      (runTrace cap tr (sendByteStart v m0)).clkDirIn = true := by
  intro cap v m0 tr hidle
  have h0 : MachInv (sendByteStart v m0) := by
    simp [MachInv, sendByteStart, ps2_enable_recv, ps2_dir, ps2_clk]
  exact machInv_idle _ (inv_runTrace cap tr _ h0) hidle

/-- C3 witness: a full acknowledged exchange for byte 0x5A ends with
state IDLE and reception re-enabled. -/
theorem sendbyte_return_idle_reception_enabled_witness :
    (runTrace PS2_RXBUF_LEN sendCompletionTrace
        (sendByteStart 90 (readyMach PS2_RXBUF_LEN))).state = St.IDLE ∧
    (runTrace PS2_RXBUF_LEN sendCompletionTrace
        (sendByteStart 90 (readyMach PS2_RXBUF_LEN))).int0Enabled = true ∧
    (runTrace PS2_RXBUF_LEN sendCompletionTrace
        (sendByteStart 90 (readyMach PS2_RXBUF_LEN))).datDirIn = true ∧
    (runTrace PS2_RXBUF_LEN sendCompletionTrace
        (sendByteStart 90 (readyMach PS2_RXBUF_LEN))).clkDirIn = true := by
  refine ⟨by decide, ?_⟩
  exact sendbyte_return_idle_reception_enabled PS2_RXBUF_LEN 90
    (readyMach PS2_RXBUF_LEN) sendCompletionTrace (by decide)

/-- Enqueue a list of bytes in order, exactly as successive validated
frames would through the RX_STOP arm. -/
def enqueueList (cap : Nat) (bs : List Nat) (m : Mach) : Mach :=
  bs.foldl (fun m b => ps2_enqueue cap b m) m

/-- Dequeue n bytes through successive ps2_getbyte calls, collecting the
returned bytes in order. -/
def dequeueN (cap : Nat) : Nat → Mach → List Nat × Mach
  | 0, m => ([], m)
  | n + 1, m =>
      let r := ps2_getbyte cap m
      let rest := dequeueN cap n r.2
      (r.1 :: rest.1, rest.2)

/-- Unfolding lemma for enqueueList. -/
theorem enqueueList_cons (cap b : Nat) (bs : List Nat) (m : Mach) :
    enqueueList cap (b :: bs) m = enqueueList cap bs (ps2_enqueue cap b m) := rfl

/-- Adding a nonzero offset below the modulus moves an in-range index. -/
theorem add_mod_ne (cap h k : Nat) (hh : h < cap) (hk0 : 0 < k) (hk : k < cap) :
    (h + k) % cap ≠ h := by
  rcases Nat.lt_or_ge (h + k) cap with hlt | hge
  · rw [Nat.mod_eq_of_lt hlt]; omega
  · rw [Nat.mod_eq_sub_mod hge, Nat.mod_eq_of_lt (by omega)]; omega

/-- Enqueuing never moves the tail. -/
theorem enqueueList_tail (cap : Nat) (bs : List Nat) (m : Mach) :
    (enqueueList cap bs m).rx_tail = m.rx_tail := by
  induction bs generalizing m with
  | nil => rfl
  | cons b bs ih => rw [enqueueList_cons, ih]; rfl

/-- Enqueuing advances the head by the number of bytes, modulo the
capacity. -/
theorem enqueueList_head (cap : Nat) (bs : List Nat) (hcap : 0 < cap) :
    ∀ m : Mach, m.rx_head < cap →
      (enqueueList cap bs m).rx_head = (m.rx_head + bs.length) % cap := by
  induction bs with
  | nil =>
      intro m hh
      simp [enqueueList, Nat.mod_eq_of_lt hh]
  | cons b bs ih =>
      intro m hh
      rw [enqueueList_cons,
        ih (ps2_enqueue cap b m) (by simp only [ps2_enqueue]; exact Nat.mod_lt _ hcap)]
      simp only [ps2_enqueue, Nat.mod_add_mod, List.length_cons]
      congr 1
      omega

/-- A slot that none of the enqueues writes keeps its contents. -/
theorem enqueueList_getD_untouched (cap : Nat) (bs : List Nat) (hcap : 0 < cap) :
    ∀ (m : Mach) (j : Nat), m.rx_head < cap →
      (∀ i, i < bs.length → (m.rx_head + i) % cap ≠ j) →
      (enqueueList cap bs m).rx_buf.getD j 0 = m.rx_buf.getD j 0 := by
  induction bs with
  | nil => intro m j _ _; rfl
  | cons b bs ih =>
      intro m j hh hne
      rw [enqueueList_cons]
      have hstep : (ps2_enqueue cap b m).rx_buf.getD j 0 = m.rx_buf.getD j 0 := by
        have hj : m.rx_head ≠ j := by
          have h0 := hne 0 (by simp)
          rwa [Nat.add_zero, Nat.mod_eq_of_lt hh] at h0
        simp [ps2_enqueue, List.getD_eq_getElem?_getD, List.getElem?_set_ne hj]
      rw [← hstep]
      apply ih (ps2_enqueue cap b m) j
      · simp only [ps2_enqueue]; exact Nat.mod_lt _ hcap
      · intro i hi
        have h1 := hne (i + 1) (by simp only [List.length_cons]; omega)
        simp only [ps2_enqueue, Nat.mod_add_mod]
        have harith : m.rx_head + 1 + i = m.rx_head + (i + 1) := by omega
        rwa [harith]

/-- Round-trip workhorse: enqueuing bs and then dequeuing bs.length
bytes starting at the old head position returns bs itself and leaves the
tail advanced to the new head. -/
theorem roundtrip_aux (cap : Nat) (bs : List Nat) :
    ∀ m : Mach, 0 < cap → m.rx_buf.length = cap → m.rx_head < cap →
      bs.length ≤ cap →
      (dequeueN cap bs.length { enqueueList cap bs m with rx_tail := m.rx_head }).1
          = bs ∧
      (dequeueN cap bs.length { enqueueList cap bs m with rx_tail := m.rx_head }).2
          = { enqueueList cap bs m with rx_tail := (m.rx_head + bs.length) % cap } := by
  induction bs with
  | nil =>
      intro m hcap hlen hh _
      refine ⟨rfl, ?_⟩
      show ({ m with rx_tail := m.rx_head } : Mach)
          = { m with rx_tail := (m.rx_head + 0) % cap }
      rw [Nat.add_zero, Nat.mod_eq_of_lt hh]
  | cons b bs ih =>
      intro m hcap hlen hh hle
      rw [enqueueList_cons]
      have hlen' : (ps2_enqueue cap b m).rx_buf.length = cap := by
        simpa [ps2_enqueue] using hlen
      have hh' : (ps2_enqueue cap b m).rx_head < cap := by
        simp only [ps2_enqueue]; exact Nat.mod_lt _ hcap
      have hle' : bs.length ≤ cap := by
        simp only [List.length_cons] at hle; omega
      have hihm := ih (ps2_enqueue cap b m) hcap hlen' hh' hle'
      have hr : (ps2_enqueue cap b m).rx_head = (m.rx_head + 1) % cap := rfl
      rw [hr] at hihm
      have hslot :
          (enqueueList cap bs (ps2_enqueue cap b m)).rx_buf.getD m.rx_head 0 = b := by
        rw [enqueueList_getD_untouched cap bs hcap (ps2_enqueue cap b m) m.rx_head hh'
          (by
            intro i hi
            simp only [ps2_enqueue, Nat.mod_add_mod]
            have harith : m.rx_head + 1 + i = m.rx_head + (1 + i) := by omega
            rw [harith]
            exact add_mod_ne cap m.rx_head (1 + i) hh (by omega)
              (by simp only [List.length_cons] at hle; omega))]
        have hd : m.rx_head < m.rx_buf.length := by omega
        simp [ps2_enqueue, List.getD_eq_getElem?_getD, List.getElem?_set_self hd]
      simp only [List.length_cons, dequeueN, ps2_getbyte]
      refine ⟨?_, ?_⟩
      · rw [hslot, hihm.1]
      · rw [hihm.2]
        have ht : ((m.rx_head + 1) % cap + bs.length) % cap
            = (m.rx_head + (bs.length + 1)) % cap := by
          rw [Nat.mod_add_mod]
          congr 1
          omega
        rw [ht]

/-- C5: ring-buffer round trip.  For every capacity, starting from an
empty buffer (head = tail, indices in range), enqueuing any N ≤ capacity
bytes and then dequeuing N bytes returns exactly the enqueued bytes in
order and leaves the buffer empty again: head = tail and ps2_avail is
false, i.e. the consumer has drained every byte produced since the last
empty state. -/
theorem rx_ring_roundtrip :
    ∀ (cap : Nat) (bs : List Nat) (m : Mach),
      0 < cap → m.rx_buf.length = cap → m.rx_head < cap →
      m.rx_tail = m.rx_head → bs.length ≤ cap →
      (dequeueN cap bs.length (enqueueList cap bs m)).1 = bs ∧
      (dequeueN cap bs.length (enqueueList cap bs m)).2.rx_head
          = (dequeueN cap bs.length (enqueueList cap bs m)).2.rx_tail ∧
      ps2_avail (dequeueN cap bs.length (enqueueList cap bs m)).2 = false := by
  intro cap bs m hcap hlen hh ht hle
  have haux := roundtrip_aux cap bs m hcap hlen hh hle
  have hE : ({ enqueueList cap bs m with rx_tail := m.rx_head } : Mach)
      = enqueueList cap bs m := by
    have h1 : m.rx_head = (enqueueList cap bs m).rx_tail := by
      rw [enqueueList_tail]; exact ht.symm
    rw [h1]
  rw [hE] at haux
  have hhead : (enqueueList cap bs m).rx_head = (m.rx_head + bs.length) % cap :=
    enqueueList_head cap bs hcap m hh
  refine ⟨haux.1, ?_, ?_⟩
  · rw [haux.2]
    show (enqueueList cap bs m).rx_head = (m.rx_head + bs.length) % cap
    exact hhead
  · rw [haux.2]
    simp [ps2_avail, hhead]

/-- C5 witness: three bytes enqueued into the fresh machine come back in
order and leave the buffer reporting empty. -/
theorem rx_ring_roundtrip_witness :
    (dequeueN PS2_RXBUF_LEN 3
        (enqueueList PS2_RXBUF_LEN [205, 7, 99] (readyMach PS2_RXBUF_LEN))).1
      = [205, 7, 99] ∧
    ps2_avail (dequeueN PS2_RXBUF_LEN 3
        (enqueueList PS2_RXBUF_LEN [205, 7, 99] (readyMach PS2_RXBUF_LEN))).2
      = false := by
  have h := rx_ring_roundtrip PS2_RXBUF_LEN [205, 7, 99] (readyMach PS2_RXBUF_LEN)
    (by decide) (by decide) (by decide) (by decide) (by decide)
  exact ⟨h.1, h.2.2⟩
